import Mathlib

/-! Verification development for the DocumentGenerator rendering engine
(document_generator.py).  The source is shallow-embedded below: text is a
list of characters, the python-docx document is a list of blocks (styled
paragraphs and tables made of rows of cells), fallible operations (list
indexing that can raise IndexError in Python) return Option, and the
external html2text converter used by the Text Sanitizer is an explicit
function parameter named handle, mirroring self.h.handle in the source. -/

namespace DocumentGenerator

/-- Text is modelled as a list of characters so that the character-level
splitting and stripping of the source can be reasoned about directly. -/
abbrev Str := List Char

/-- Converts a Lean string literal into the character-list representation. -/
def str (s : String) : Str := s.data

/-- The whitespace characters matched by the Python regex class used in the
source (space, tab, newline, carriage return, vertical tab, form feed);
also the ASCII characters removed by str.strip(). -/
def isPyWs (c : Char) : Bool :=
  c == ' ' || c == '\t' || c == '\n' || c == '\r' || c == '\x0b' || c == '\x0c'

/-- Removes leading whitespace, as the leading half of Python str.strip(). -/
def lstripWs : Str → Str
  | [] => []
  | c :: cs => if isPyWs c then lstripWs cs else c :: cs

/-- Removes trailing whitespace, as the trailing half of Python str.strip(). -/
def rstripWs (s : Str) : Str := (lstripWs s.reverse).reverse

/-- Python str.strip() with no arguments: remove leading and trailing
whitespace. -/
def stripWs (s : Str) : Str := rstripWs (lstripWs s)

/-- Consumes a maximal run of spaces and tabs; models the greedy
space-or-tab star inside the blank-line-collapsing regex of clean_text
(source line 46). -/
def skipSpTab : Str → Str
  | [] => []
  | c :: cs => if c == ' ' || c == '\t' then skipSpTab cs else c :: cs

/-- Tries to match the clean_text regex (a newline, optional spaces/tabs, a
newline, optional spaces/tabs, a newline) at the start of the string,
returning the remainder after the match.  Because the optional run
consists of spaces and tabs only, the greedy match is deterministic. -/
def matchTriple (s : Str) : Option Str :=
  match s with
  | '\n' :: r1 =>
    match skipSpTab r1 with
    | '\n' :: r2 =>
      match skipSpTab r2 with
      | '\n' :: r3 => some r3
      | _ => none
    | _ => none
  | _ => none

/-- True when the clean_text regex matches somewhere in the string. -/
def hasTriple : Str → Bool
  | [] => false
  | c :: cs => (matchTriple (c :: cs)).isSome || hasTriple cs

/-- True when the string contains three consecutive newline characters. -/
def hasTripleNl : Str → Bool
  | '\n' :: '\n' :: '\n' :: _ => true
  | _ :: rest => hasTripleNl rest
  | [] => false

/-- One left-to-right pass of re.sub with the clean_text pattern: each
non-overlapping match is replaced by two newlines and scanning resumes
after the replaced text.  The fuel argument (instantiated with the length
of the string, which bounds the number of steps) keeps the recursion
structural so that proofs can evaluate the function. -/
def collapseAux : Nat → Str → Str
  | 0, s => s
  | _ + 1, [] => []
  | n + 1, c :: cs =>
    match matchTriple (c :: cs) with
    | some rest => '\n' :: '\n' :: collapseAux n rest
    | none => c :: collapseAux n cs

/-- re.sub of the blank-line pattern with two newlines (source line 48). -/
def collapseRun (s : Str) : Str := collapseAux s.length s

/-- The part of clean_text owned by the repository (source lines 46-48):
strip the converter output, then run the single-pass blank-line collapse. -/
def cleanCore (s : Str) : Str := collapseRun (stripWs s)

/-- clean_text (source lines 38-48).  The html2text conversion
self.h.handle is an external library call and is passed in as the function
parameter handle; the repository then strips the result and collapses
blank-line runs.  The lru_cache memoization is semantically invisible for
a pure function and is not modelled. -/
def clean_text (handle : Str → Str) (text : Str) : Str := cleanCore (handle text)

/-- handle_answer_type (source lines 56-63): dispatch on the answer-type
tag.  Currency removes every space character, Percentage strips and
appends a percent sign, the multi-select tag strips, and every other tag
(including Table, Json and JSON, which have no case of their own) falls
through to clean_text. -/
def handle_answer_type (handle : Str → Str) (answer_value : Str) (answer_type : Str) : Str :=
  if answer_type = str "Currency" then answer_value.filter (fun c => !(c == ' '))
  else if answer_type = str "Percentage" then stripWs answer_value ++ str "%"
  else if answer_type = str "Multiple Choice(Select all that apply)" then stripWs answer_value
  else clean_text handle answer_value

/-- Python str.split with a one-character separator: always returns at
least one piece, and returns one single empty piece for the empty string. -/
def splitOnChar (sep : Char) : Str → List Str
  | [] => [[]]
  | c :: cs =>
    if c = sep then [] :: splitOnChar sep cs
    else
      match splitOnChar sep cs with
      | [] => [[c]]
      | l :: ls => (c :: l) :: ls

/-- Trims the non-first pieces produced by the pipe split: every middle
piece loses whitespace on both sides (it is adjacent to a pipe on both
sides) and the last piece loses only its leading whitespace. -/
def trimMiddle : List Str → List Str
  | [] => []
  | [last] => [lstripWs last]
  | mid :: more => stripWs mid :: trimMiddle more

/-- re.split of a line on a pipe with optional surrounding whitespace
(source lines 52-53).  Each match of the pattern consumes one pipe plus
the maximal whitespace runs on either side of it, so the split is
equivalent to cutting at every pipe and then removing exactly the
whitespace adjacent to a pipe: the first piece keeps its leading
whitespace and the last piece keeps its trailing whitespace.  A line with
no pipe is returned unchanged as a single piece. -/
def reSplitPipe (s : Str) : List Str :=
  match splitOnChar '|' s with
  | [] => [s]
  | [one] => [one]
  | first :: rest => rstripWs first :: trimMiddle rest

/-- Rebuilds a line from its pipe-separated chunks (one pipe between
consecutive chunks).  Quantifying over chunk lists lets theorems about
reSplitPipe cover lines with any number of pipes. -/
def joinPipe : List Str → Str
  | [] => []
  | [c] => c
  | c :: cs => c ++ '|' :: joinPipe cs

/-- parse_markdown_table (source lines 50-54).  The input is stripped and
split on newlines; line 0 (stripped again) is pipe-split into the headers,
line 1 is discarded without validation, and every line from index 2 on is
stripped and pipe-split into a data row.  The Python expression lines[0]
would raise IndexError on an empty list, modelled by the none branch; the
slice lines[2:] is total. -/
def parse_markdown_table (markdown : Str) : Option (List Str × List (List Str)) :=
  let lines := splitOnChar '\n' (stripWs markdown)
  match lines with
  | [] => none
  | line0 :: _ =>
    some (reSplitPipe (stripWs line0),
          (lines.drop 2).map fun line => reSplitPipe (stripWs line))

/-- Class constant BORDER_COLOR_DEFAULT. -/
def BORDER_COLOR_DEFAULT : Str := str "000000"

/-- Class constant BORDER_SIZE_DEFAULT. -/
def BORDER_SIZE_DEFAULT : Str := str "4"

/-- Class constant CELL_BG_COLOR_WHITE. -/
def CELL_BG_COLOR_WHITE : Str := str "FFFFFF"

/-- Class constant CELL_BG_COLOR_HEADER. -/
def CELL_BG_COLOR_HEADER : Str := str "94B1D4"

/-- Class constant CELL_BG_COLOR_BLUE. -/
def CELL_BG_COLOR_BLUE : Str := str "F6FAFF"

/-- Class constant BORDER_COLOR_GREY. -/
def BORDER_COLOR_GREY : Str := str "CCCCCC"

/-- Class constant CELL_BG_COLOR_DARK. -/
def CELL_BG_COLOR_DARK : Str := str "002541"

/-- A cell of the nested answer table: its text and its background shading
(none until set_cell_background is called on it). -/
structure NCell where
  text : Str
  bg : Option Str
deriving DecidableEq

/-- The nested answer table added inside the Answer value cell: a fixed
column count, the border colour and size applied by set_table_border, and
the rows appended by _populate_table. -/
structure NTable where
  cols : Nat
  borderColor : Str
  borderSize : Str
  rows : List (List NCell)
deriving DecidableEq

/-- A cell of an outer two-column table.  Background shading, font colour
(an RGB triple, none unless the code sets it) and an optional nested
table (present only on the Answer value cell of a Table/JSON answer).
Margins and column widths set by set_cell_margins and set_cell_width are
visual configuration not referenced by any claim and are not modelled. -/
structure QCell where
  text : Str
  bg : Option Str
  fontColor : Option (Nat × Nat × Nat)
  nested : Option NTable
deriving DecidableEq

/-- A table added to the document: column count, border styling from
set_table_border, and its rows.  A row produced by merging both cells
(the question header row) is represented as a one-element row. -/
structure QTable where
  cols : Nat
  borderColor : Str
  borderSize : Str
  rows : List (List QCell)
deriving DecidableEq

/-- A top-level document element: a paragraph (with optional named style)
or a table.  Page margins and font configuration are out of scope. -/
inductive Block where
  | para (text : Str) (style : Option Str)
  | table (t : QTable)
deriving DecidableEq

/-- The empty cells of a freshly added nested-table row (add_row). -/
def mkEmptyNRow (cols : Nat) : List NCell := List.replicate cols { text := [], bg := none }

/-- A nested-table cell as written by the loops of _populate_table: the
text is assigned and the background is set to white. -/
def white_ncell (text : Str) : NCell := { text := text, bg := some CELL_BG_COLOR_WHITE }

/-- The body of one _populate_table loop (source lines 119-122 and
125-128): enumerate the values and write cells[index].  Writing position
index for index below the length of the value list is the same as filling
the cells from the left; an index beyond the row raises IndexError in
python-docx, modelled by none. -/
def fillCells : List NCell → List Str → Option (List NCell)
  | cells, [] => some cells
  | [], _ :: _ => none
  | _ :: cs, v :: vs =>
    match fillCells cs vs with
    | none => none
    | some rest => some (white_ncell v :: rest)

/-- The data-row loop of _populate_table: one add_row per parsed data row,
each filled by fillCells. -/
def fillRows (cols : Nat) : List (List Str) → Option (List (List NCell))
  | [] => some []
  | r :: rs =>
    match fillCells (mkEmptyNRow cols) r, fillRows cols rs with
    | some c, some cs => some (c :: cs)
    | _, _ => none

/-- _populate_table (source lines 117-128): one header row filled from the
headers, then one row per data row. -/
def _populate_table (table : NTable) (headers : List Str) (rows : List (List Str)) :
    Option NTable :=
  match fillCells (mkEmptyNRow table.cols) headers, fillRows table.cols rows with
  | some hrow, some drows => some { table with rows := table.rows ++ hrow :: drows }
  | _, _ => none

/-- The nested table created by add_question_table_row (source lines
145-147): zero rows, one column per header, grey border. -/
def new_answer_table (headers : List Str) : NTable :=
  { cols := headers.length, borderColor := BORDER_COLOR_GREY,
    borderSize := BORDER_SIZE_DEFAULT, rows := [] }

/-- The label cell of a two-column question row after _style_table_row:
secondary (blue) background tint. -/
def label_cell (name : Str) : QCell :=
  { text := name, bg := some CELL_BG_COLOR_BLUE, fontColor := none, nested := none }

/-- The value cell of a scalar question row: empty values are replaced by
the literal N/A, the background is white, and the font colour is set to
the muted grey RGB(124, 124, 124) exactly when the displayed value is the
literal N/A. -/
def value_cell (value : Str) : QCell :=
  { text := if value = [] then str "N/A" else value,
    bg := some CELL_BG_COLOR_WHITE,
    fontColor := if (if value = [] then str "N/A" else value) = str "N/A"
                 then some (124, 124, 124) else none,
    nested := none }

/-- _style_table_row (source lines 95-100): background tints on the label
and value cells (margins and width are visual configuration, not
modelled). -/
def _style_table_row (c0 c1 : QCell) (headerColor bodyColor : Str) : List QCell :=
  [{ c0 with bg := some headerColor }, { c1 with bg := some bodyColor }]

/-- add_question_row (source lines 131-139): substitute N/A for a falsy
(empty) value, write both cells, set the muted grey font colour when the
displayed value equals N/A, and style the row. -/
def add_question_row (t : QTable) (name value : Str) : QTable :=
  let v := if value = [] then str "N/A" else value
  let cell0 : QCell := { text := name, bg := none, fontColor := none, nested := none }
  let cell1 : QCell :=
    { text := v, bg := none,
      fontColor := if v = str "N/A" then some (124, 124, 124) else none, nested := none }
  { t with rows := t.rows ++ [_style_table_row cell0 cell1 CELL_BG_COLOR_BLUE CELL_BG_COLOR_WHITE] }

/-- add_question_table_row (source lines 141-150): parse the markdown
table, add a row whose label cell carries the name, put a fresh bordered
nested table in the value cell, populate it, and style the row.  The
value cell text stays empty because only a table is added to it. -/
def add_question_table_row (t : QTable) (name value : Str) : Option QTable :=
  match parse_markdown_table value with
  | none => none
  | some (headers, rows) =>
    match _populate_table (new_answer_table headers) headers rows with
    | none => none
    | some nt =>
      let cell0 : QCell := { text := name, bg := none, fontColor := none, nested := none }
      let cell1 : QCell := { text := [], bg := none, fontColor := none, nested := some nt }
      some { t with rows := t.rows ++
              [_style_table_row cell0 cell1 CELL_BG_COLOR_BLUE CELL_BG_COLOR_WHITE] }

/-- One entry of docListAnswer. -/
structure DocListEntry where
  attachedFiles : List Str
deriving DecidableEq

/-- A question record, with the fields the source reads (schema section of
the spec). -/
structure Question where
  elementNumber : Str
  questionText : Str
  answerType : Str
  answerValue : Str
  answerComments : Str
  triggerValue : Str
  parentElementNumber : Str
  docListAnswer : List DocListEntry
deriving DecidableEq

/-- The merged header text of a question table (source lines 105-106). -/
def question_header_text (handle : Str → Str) (q : Question) : Str :=
  clean_text handle q.elementNumber ++ [' '] ++ clean_text handle q.questionText

/-- The single merged header cell written by _add_question_header (source
lines 102-108): header background tint. -/
def question_header_cell (handle : Str → Str) (q : Question) : QCell :=
  { text := question_header_text handle q, bg := some CELL_BG_COLOR_HEADER,
    fontColor := none, nested := none }

/-- _create_question_table (source lines 110-115): a fresh two-column table
with the grey border applied. -/
def _create_question_table : QTable :=
  { cols := 2, borderColor := BORDER_COLOR_GREY, borderSize := BORDER_SIZE_DEFAULT, rows := [] }

/-- The first table created by build_question (source lines 152-155): it is
bordered and then immediately shadowed by the table from
_create_question_table, so it keeps zero rows forever. -/
def shadow_table : QTable :=
  { cols := 2, borderColor := BORDER_COLOR_GREY, borderSize := BORDER_SIZE_DEFAULT, rows := [] }

/-- _add_question_header: append the merged header row. -/
def _add_question_header (handle : Str → Str) (t : QTable) (quest : Question) : QTable :=
  { t with rows := t.rows ++ [[question_header_cell handle quest]] }

/-- The follow-up conditional of build_question (source lines 160-165): a
Follow-up row is added only when triggerValue is truthy (non-empty). -/
def followupBranch (handle : Str → Str) (t : QTable) (quest : Question) : QTable :=
  if quest.triggerValue ≠ [] then
    add_question_row t (str "Follow-up")
      (clean_text handle quest.triggerValue ++ str " on " ++
        clean_text handle quest.parentElementNumber)
  else t

/-- The answer conditional of build_question (source lines 167-175): a
scalar Answer row unless the answer type is the exact string Table or the
exact string JSON, in which case the nested-table row is added. -/
def answerBranch (handle : Str → Str) (t : QTable) (quest : Question) : Option QTable :=
  let answer_value := handle_answer_type handle quest.answerValue quest.answerType
  if quest.answerType ≠ str "Table" ∧ quest.answerType ≠ str "JSON" then
    some (add_question_row t (str "Answer") answer_value)
  else
    add_question_table_row t (str "Answer") answer_value

/-- Python str.join with a comma-space separator. -/
def joinComma : List Str → Str
  | [] => []
  | [x] => x
  | x :: xs => x ++ str ", " ++ joinComma xs

/-- The list comprehension of build_question (source lines 180-181):
flatten every attachedFiles list in docListAnswer order. -/
def flatten_attached : List DocListEntry → List Str
  | [] => []
  | d :: ds => d.attachedFiles ++ flatten_attached ds

/-- build_question (source lines 130-184): create the shadowed table, then
the real question table with header row, optional Follow-up row, the
Answer row (scalar or nested), the Comment row and the Documents row.
The two tables created at lines 152-157 are both appended to the
document; a failure inside the nested-table branch aborts the build. -/
def build_question (handle : Str → Str) (quest : Question) : Option (List Block) :=
  let t := _add_question_header handle _create_question_table quest
  let t := followupBranch handle t quest
  match answerBranch handle t quest with
  | none => none
  | some ta =>
    let tb := add_question_row ta (str "Comment") (clean_text handle quest.answerComments)
    let tc := add_question_row tb (str "Documents") (joinComma (flatten_attached quest.docListAnswer))
    some [Block.table shadow_table, Block.table tc]

/-- A JSON value, as loaded by json.load for the metadata lookups. -/
inductive JVal where
  | null
  | jstr (s : Str)
  | jnum (n : Int)
  | jbool (b : Bool)
  | jobj (fields : List (Str × JVal))
  | jarr (elems : List JVal)

/-- Python dict.get restricted to JSON objects (keys are unique, first
match wins). -/
def jlookup : List (Str × JVal) → Str → Option JVal
  | [], _ => none
  | (k2, v) :: rest, k => if k2 = k then some v else jlookup rest k

/-- get_nested_value (source lines 186-194): walk the key path, returning
the default the instant a node is not a mapping or a key is missing.  In
the source the early exit tests object identity against the default
(data is default), which distinguishes a freshly returned default from a
stored value; for JSON-loaded data no stored value is the default object,
so a missing key is exactly the none branch of the lookup. -/
def get_nested_value : JVal → List Str → JVal → JVal
  | data, [], _ => data
  | data, k :: ks, d =>
    match data with
    | JVal.jobj fields =>
      match jlookup fields k with
      | none => d
      | some v => get_nested_value v ks d
    | _ => d

/-- Python truthiness of a JSON value (the `if not value` test of
add_meta_data_row). -/
def jvalTruthy : JVal → Bool
  | JVal.null => false
  | JVal.jstr s => !s.isEmpty
  | JVal.jnum n => n != 0
  | JVal.jbool b => b
  | JVal.jobj fields => !fields.isEmpty
  | JVal.jarr elems => !elems.isEmpty

/-- add_meta_data_row (source lines 196-203): skip falsy values entirely,
otherwise add a row styled with the header tint on the label cell.
Assigning a non-string value to cell text would raise inside the
document composer, modelled by none. -/
def add_meta_data_row (t : QTable) (name : Str) (value : JVal) : Option QTable :=
  if jvalTruthy value = false then some t
  else
    match value with
    | JVal.jstr s =>
      let cell0 : QCell := { text := name, bg := none, fontColor := none, nested := none }
      let cell1 : QCell := { text := s, bg := none, fontColor := none, nested := none }
      some { t with rows := t.rows ++
              [_style_table_row cell0 cell1 CELL_BG_COLOR_HEADER CELL_BG_COLOR_WHITE] }
    | _ => none

/-- The configured metadata label and key-path pairs (source lines
211-222). -/
def assessment_details : List (Str × List Str) :=
  [(str "Assessment",
    [str "pqiBasicInfo", str "questionnaireBasicInfo", str "qStructureBasicInfo", str "name"]),
   (str "Report Generated", [str "reportGeneratedOn"]),
   (str "Publisher", [str "pqiBasicInfo", str "publishedByUser", str "companyName"]),
   (str "Published By",
    [str "pqiBasicInfo", str "publishedByUser", str "userProfile", str "fullName"]),
   (str "Published On", [str "pqiBasicInfo", str "publishedDate"]),
   (str "Recipient", [str "partner", str "name"]),
   (str "Received By",
    [str "pqiBasicInfo", str "publishedToContact", str "contactProfile", str "fullName"])]

/-- The loop of add_assessment_metadata over the configured details. -/
def addMetaRows (root : JVal) (t : QTable) : List (Str × List Str) → Option QTable
  | [] => some t
  | (name, keys) :: rest =>
    match add_meta_data_row t name (get_nested_value root keys (JVal.jstr [])) with
    | none => none
    | some t2 => addMetaRows root t2 rest

/-- add_assessment_metadata (source lines 205-226): a fresh bordered
two-column table filled from the configured detail list with the empty
string as lookup default. -/
def add_assessment_metadata (root : JVal) : Option QTable :=
  addMetaRows root
    { cols := 2, borderColor := BORDER_COLOR_GREY, borderSize := BORDER_SIZE_DEFAULT, rows := [] }
    assessment_details

/-- A subsection record. -/
structure SubSection where
  elementNumber : Str
  sectionName : Str
  questionDetails : List Question
deriving DecidableEq

/-- A section record. -/
structure Section where
  elementNumber : Str
  sectionName : Str
  questionDetails : List Question
  subSections : List SubSection
deriving DecidableEq

/-- The loaded input document: the raw JSON mapping used by the metadata
lookups, together with the typed view of its sections array that the
section loop of generate_document walks (schema section of the spec). -/
structure AssessmentExport where
  root : JVal
  sections : List Section

/-- add_assessment_section (source lines 235-244): a one-column bordered
table holding a single banner row with dark background and white text. -/
def add_assessment_section (sectionHeading : Str) : Block :=
  Block.table
    { cols := 1, borderColor := BORDER_COLOR_GREY, borderSize := BORDER_SIZE_DEFAULT,
      rows := [[{ text := sectionHeading, bg := some CELL_BG_COLOR_DARK,
                  fontColor := some (255, 255, 255), nested := none }]] }

/-- The banner text of a section or subsection (source lines 283 and
290). -/
def section_heading (handle : Str → Str) (elementNumber sectionName : Str) : Str :=
  clean_text handle elementNumber ++ str ". " ++ clean_text handle sectionName

/-- The inner question loop of generate_document: build each question in
order, concatenating the blocks it appends. -/
def renderQuestions (handle : Str → Str) : List Question → Option (List Block)
  | [] => some []
  | q :: qs =>
    match build_question handle q, renderQuestions handle qs with
    | some bs, some rest => some (bs ++ rest)
    | _, _ => none

/-- The subsection loop of generate_document (source lines 289-294):
banner, questions, then an empty paragraph after each subsection. -/
def renderSubSections (handle : Str → Str) : List SubSection → Option (List Block)
  | [] => some []
  | ss :: more =>
    match renderQuestions handle ss.questionDetails, renderSubSections handle more with
    | some qs, some rest =>
      some (add_assessment_section (section_heading handle ss.elementNumber ss.sectionName) ::
            qs ++ Block.para [] none :: rest)
    | _, _ => none

/-- The section loop of generate_document (source lines 282-295): banner,
direct questions, subsections, then an empty paragraph after each
section. -/
def renderSections (handle : Str → Str) : List Section → Option (List Block)
  | [] => some []
  | s :: more =>
    match renderQuestions handle s.questionDetails,
          renderSubSections handle s.subSections, renderSections handle more with
    | some qs, some subs, some rest =>
      some (add_assessment_section (section_heading handle s.elementNumber s.sectionName) ::
            (qs ++ subs ++ Block.para [] none :: rest))
    | _, _, _ => none

/-- generate_document after a successful load (source lines 258-298): the
title paragraph in the custom style, the Details banner, the metadata
table, an empty paragraph, then the section walk.  File loading, page
margins, font configuration and saving are I/O and typography outside the
embedded core. -/
def generate_document (handle : Str → Str) (d : AssessmentExport) : Option (List Block) :=
  match add_assessment_metadata d.root, renderSections handle d.sections with
  | some mt, some secs =>
    some (Block.para (str "Assessment Export") (some (str "Centrl Header")) ::
          add_assessment_section (str "Details") ::
          Block.table mt ::
          Block.para [] none :: secs)
  | _, _ => none

/-- An item of the rendered outline: a banner or a question block,
identified by its visible text. -/
inductive OItem where
  | banner (text : Str)
  | qblock (headerText : Str)
deriving DecidableEq

/-- Classifies a block for the outline: a one-column single-row table is a
banner; a wider table whose first row is a single merged cell is a
question table.  Paragraphs, the metadata table (rows of two cells) and
the empty shadowed tables are not outline items. -/
def blockOutline : Block → Option OItem
  | Block.para _ _ => none
  | Block.table t =>
    if t.cols = 1 then
      match t.rows with
      | [[c]] => some (OItem.banner c.text)
      | _ => none
    else
      match t.rows with
      | [c] :: _ => some (OItem.qblock c.text)
      | _ => none

/-- The outline of a block list. -/
def outline (bs : List Block) : List OItem := bs.filterMap blockOutline

/-- Spec-side traversal order for the subsections of one section, written
from the traversal-order paragraph of the spec: each subsection
contributes its banner and then its questions in input order. -/
def specSubWalk (handle : Str → Str) : List SubSection → List OItem
  | [] => []
  | ss :: more =>
    OItem.banner (section_heading handle ss.elementNumber ss.sectionName) ::
    (ss.questionDetails.map fun q => OItem.qblock (question_header_text handle q)) ++
    specSubWalk handle more

/-- Spec-side traversal order, written from the traversal-order paragraph
of the spec: for each section in input order its banner, its direct
questions in input order, then its subsections in input order.  The
refinement theorem for C3 compares the rendered outline against this. -/
def specTraversalOrder (handle : Str → Str) : List Section → List OItem
  | [] => []
  | s :: more =>
    OItem.banner (section_heading handle s.elementNumber s.sectionName) ::
    (s.questionDetails.map fun q => OItem.qblock (question_header_text handle q)) ++
    specSubWalk handle s.subSections ++
    specTraversalOrder handle more

/-- Checks that a row is a Comment row rendered as the muted N/A. -/
def rowIsMutedComment : List QCell → Bool
  | [c0, c1] =>
    if c0.text = str "Comment" then
      if c1.text = str "N/A" then
        if c1.fontColor = some (124, 124, 124) then true else false
      else false
    else false
  | _ => false

/-- Checks that a successful build_question result contains a Comment row
rendered as the muted N/A in its question table. -/
def commentRowMuted : Option (List Block) → Bool
  | some [_, Block.table t1] => t1.rows.any rowIsMutedComment
  | _ => false

/-- Checks that a successful build_question result contains no nested
table anywhere in its question table. -/
def secondTableNoNested : Option (List Block) → Bool
  | some [_, Block.table t1] => t1.rows.all fun row => row.all fun c => c.nested.isNone
  | _ => false

/-- A plain scalar question used to instantiate general theorems. -/
def qScalarW : Question :=
  { elementNumber := str "1", questionText := str "q", answerType := str "Text",
    answerValue := str "v", answerComments := str "c", triggerValue := [],
    parentElementNumber := [], docListAnswer := [] }

/-- The blocks build_question appends for qScalarW. -/
def scalarWBlocks : List Block :=
  [Block.table shadow_table,
   Block.table
     { cols := 2, borderColor := BORDER_COLOR_GREY, borderSize := BORDER_SIZE_DEFAULT,
       rows :=
         [[{ text := str "1 q", bg := some CELL_BG_COLOR_HEADER, fontColor := none, nested := none }],
          [{ text := str "Answer", bg := some CELL_BG_COLOR_BLUE, fontColor := none, nested := none },
           { text := str "v", bg := some CELL_BG_COLOR_WHITE, fontColor := none, nested := none }],
          [{ text := str "Comment", bg := some CELL_BG_COLOR_BLUE, fontColor := none, nested := none },
           { text := str "c", bg := some CELL_BG_COLOR_WHITE, fontColor := none, nested := none }],
          [{ text := str "Documents", bg := some CELL_BG_COLOR_BLUE, fontColor := none, nested := none },
           { text := str "N/A", bg := some CELL_BG_COLOR_WHITE, fontColor := some (124, 124, 124),
             nested := none }]] }]

/-- A question with an embedded two-column, one-row markdown table. -/
def qTableW : Question :=
  { elementNumber := str "1", questionText := str "q", answerType := str "Table",
    answerValue := str "a|b\n-\nc|d", answerComments := str "cm", triggerValue := [],
    parentElementNumber := [], docListAnswer := [{ attachedFiles := [str "f.pdf"] }] }

/-- The blocks build_question appends for qTableW. -/
def tblWBlocks : List Block :=
  [Block.table shadow_table,
   Block.table
     { cols := 2, borderColor := BORDER_COLOR_GREY, borderSize := BORDER_SIZE_DEFAULT,
       rows :=
         [[{ text := str "1 q", bg := some CELL_BG_COLOR_HEADER, fontColor := none, nested := none }],
          [{ text := str "Answer", bg := some CELL_BG_COLOR_BLUE, fontColor := none, nested := none },
           { text := [], bg := some CELL_BG_COLOR_WHITE, fontColor := none,
             nested := some
               { cols := 2, borderColor := BORDER_COLOR_GREY, borderSize := BORDER_SIZE_DEFAULT,
                 rows := [[white_ncell (str "a"), white_ncell (str "b")],
                          [white_ncell (str "c"), white_ncell (str "d")]] } }],
          [{ text := str "Comment", bg := some CELL_BG_COLOR_BLUE, fontColor := none, nested := none },
           { text := str "cm", bg := some CELL_BG_COLOR_WHITE, fontColor := none, nested := none }],
          [{ text := str "Documents", bg := some CELL_BG_COLOR_BLUE, fontColor := none, nested := none },
           { text := str "f.pdf", bg := some CELL_BG_COLOR_WHITE, fontColor := none, nested := none }]] }]

/-- A question whose answerType is the mixed-case string Json, with
table-shaped answer text and an empty comment. -/
def qJsonCase : Question :=
  { elementNumber := str "1", questionText := str "q", answerType := str "Json",
    answerValue := str "h|h2\n-\na|b", answerComments := [], triggerValue := [],
    parentElementNumber := [], docListAnswer := [] }

/-- A Table question whose data row has more cells than its header row. -/
def raggedQ : Question :=
  { elementNumber := str "1", questionText := str "q", answerType := str "Table",
    answerValue := str "h\n-\na|b|c", answerComments := [], triggerValue := [],
    parentElementNumber := [], docListAnswer := [] }

/-- A small input document used to instantiate the traversal theorem: an
empty metadata mapping and one section holding one scalar question. -/
def w3data : AssessmentExport :=
  { root := JVal.jobj [],
    sections := [{ elementNumber := str "1", sectionName := str "s",
                   questionDetails := [qScalarW], subSections := [] }] }

/-- The blocks generate_document emits for w3data. -/
def w3Blocks : List Block :=
  [Block.para (str "Assessment Export") (some (str "Centrl Header")),
   add_assessment_section (str "Details"),
   Block.table
     { cols := 2, borderColor := BORDER_COLOR_GREY, borderSize := BORDER_SIZE_DEFAULT, rows := [] },
   Block.para [] none,
   add_assessment_section (str "1. s")] ++ scalarWBlocks ++ [Block.para [] none]

/-- Stripping on the left removes a whitespace run: the input is that run
followed by the stripped output. -/
theorem lstripWs_dropped (s : Str) : ∃ p, s = p ++ lstripWs s := by
  induction s with
  | nil => exact ⟨[], rfl⟩
  | cons c cs ih =>
    cases h : isPyWs c with
    | true =>
      obtain ⟨p, hp⟩ := ih
      refine ⟨c :: p, ?_⟩
      simp only [lstripWs, h, if_true, List.cons_append, List.cons.injEq, true_and]
      exact hp
    | false => exact ⟨[], by simp [lstripWs, h]⟩

/-- The head of a left-stripped string is never whitespace. -/
theorem lstripWs_head : ∀ (s : Str) (c : Char) (cs : Str),
    lstripWs s = c :: cs → isPyWs c = false := by
  intro s
  induction s with
  | nil => intro c cs h; simp [lstripWs] at h
  | cons a as ih =>
    intro c cs h
    simp only [lstripWs] at h
    split at h
    · exact ih c cs h
    · rename_i hcond
      injection h with h1 _
      subst h1
      simpa using hcond

/-- A string whose head is not whitespace is unchanged by left
stripping. -/
theorem lstripWs_of_head (c : Char) (cs : Str) (h : isPyWs c = false) :
    lstripWs (c :: cs) = c :: cs := by
  simp [lstripWs, h]

/-- Left stripping is idempotent. -/
theorem lstripWs_idem (s : Str) : lstripWs (lstripWs s) = lstripWs s := by
  cases h : lstripWs s with
  | nil => simp [lstripWs]
  | cons c cs => exact lstripWs_of_head c cs (lstripWs_head s c cs h)

/-- Right stripping is idempotent. -/
theorem rstripWs_idem (s : Str) : rstripWs (rstripWs s) = rstripWs s := by
  unfold rstripWs
  rw [List.reverse_reverse, lstripWs_idem]

/-- Stripping on the right removes a whitespace run at the end. -/
theorem rstripWs_dropped (s : Str) : ∃ u, s = rstripWs s ++ u := by
  obtain ⟨p, hp⟩ := lstripWs_dropped s.reverse
  refine ⟨p.reverse, ?_⟩
  have h2 := congrArg List.reverse hp
  simpa [rstripWs] using h2

/-- Full stripping is idempotent. -/
theorem stripWs_idem (s : Str) : stripWs (stripWs s) = stripWs s := by
  unfold stripWs
  have h1 : lstripWs (rstripWs (lstripWs s)) = rstripWs (lstripWs s) := by
    obtain ⟨u, hu⟩ := rstripWs_dropped (lstripWs s)
    cases h : rstripWs (lstripWs s) with
    | nil => simp [lstripWs]
    | cons c cs =>
      apply lstripWs_of_head
      have hls : lstripWs s = c :: (cs ++ u) := by
        rw [hu, h]; simp
      exact lstripWs_head s c (cs ++ u) hls
  rw [h1, rstripWs_idem]

/-- On a string without the blank-line pattern the collapse pass is the
identity, for any amount of fuel. -/
theorem collapseAux_of_not_hasTriple :
    ∀ (n : Nat) (s : Str), hasTriple s = false → collapseAux n s = s := by
  intro n
  induction n with
  | zero => intro s _; rfl
  | succ n ih =>
    intro s h
    cases s with
    | nil => rfl
    | cons c cs =>
      have hm : matchTriple (c :: cs) = none := by
        cases hmt : matchTriple (c :: cs) with
        | none => rfl
        | some r =>
          simp only [hasTriple] at h
          rw [hmt] at h
          simp at h
      have hcs : hasTriple cs = false := by
        simp only [hasTriple] at h
        rw [hm] at h
        simpa using h
      simp only [collapseAux]
      rw [hm, ih cs hcs]

/-- On a string without the blank-line pattern the collapse pass is the
identity. -/
theorem collapseRun_of_not_hasTriple (s : Str) (h : hasTriple s = false) :
    collapseRun s = s :=
  collapseAux_of_not_hasTriple s.length s h

/-- Splitting never produces an empty piece list. -/
theorem splitOnChar_ne_nil (sep : Char) (s : Str) : splitOnChar sep s ≠ [] := by
  cases s with
  | nil => simp [splitOnChar]
  | cons c cs =>
    simp only [splitOnChar]
    split
    · simp
    · split <;> simp

/-- Splitting a string that does not contain the separator returns the
string unchanged as the only piece. -/
theorem splitOnChar_not_mem (sep : Char) :
    ∀ (s : Str), sep ∉ s → splitOnChar sep s = [s] := by
  intro s
  induction s with
  | nil => intro _; rfl
  | cons c cs ih =>
    intro h
    have hc : ¬ c = sep := fun he => h (by rw [he]; exact List.mem_cons_self sep cs)
    have hcs : sep ∉ cs := fun hm => h (List.mem_cons_of_mem c hm)
    simp only [splitOnChar, if_neg hc, ih hcs]

/-- Splitting around one separator occurrence cuts exactly there. -/
theorem splitOnChar_append (sep : Char) (b : Str) :
    ∀ (a : Str), sep ∉ a → splitOnChar sep (a ++ sep :: b) = a :: splitOnChar sep b := by
  intro a
  induction a with
  | nil => simp [splitOnChar]
  | cons c cs ih =>
    intro h
    have hc : ¬ c = sep := fun he => h (by rw [he]; exact List.mem_cons_self sep cs)
    have hcs : sep ∉ cs := fun hm => h (List.mem_cons_of_mem c hm)
    simp only [List.cons_append, splitOnChar, if_neg hc, List.append_eq]
    rw [ih hcs]

/-- The pipe split of a line containing no pipe is that line, untrimmed. -/
theorem reSplitPipe_no_pipe (line : Str) (h : '|' ∉ line) : reSplitPipe line = [line] := by
  unfold reSplitPipe
  rw [splitOnChar_not_mem '|' line h]

/-- The pipe split of a line with exactly one pipe: the left piece loses
only its trailing whitespace and the right piece only its leading
whitespace. -/
theorem reSplitPipe_one_pipe (a b : Str) (ha : '|' ∉ a) (hb : '|' ∉ b) :
    reSplitPipe (a ++ '|' :: b) = [rstripWs a, lstripWs b] := by
  unfold reSplitPipe
  rw [splitOnChar_append '|' b a ha, splitOnChar_not_mem '|' b hb]
  rfl

/-- The pipe split never returns an empty cell list. -/
theorem reSplitPipe_ne_nil (s : Str) : reSplitPipe s ≠ [] := by
  unfold reSplitPipe
  cases h : splitOnChar '|' s with
  | nil => simp
  | cons a as => cases as <;> simp

/-- Splitting on pipes inverts joining pipe-free chunks. -/
theorem splitOnChar_joinPipe :
    ∀ (cells : List Str), cells ≠ [] → (∀ c ∈ cells, '|' ∉ c) →
    splitOnChar '|' (joinPipe cells) = cells := by
  intro cells
  induction cells with
  | nil => intro h _; exact absurd rfl h
  | cons c cs ih =>
    intro _ hall
    cases cs with
    | nil => exact splitOnChar_not_mem '|' c (hall c (List.mem_cons_self c []))
    | cons c2 rest =>
      have h1 : joinPipe (c :: c2 :: rest) = c ++ '|' :: joinPipe (c2 :: rest) := rfl
      rw [h1,
        splitOnChar_append '|' (joinPipe (c2 :: rest)) c (hall c (List.mem_cons_self _ _)),
        ih (by simp) (fun x hx => hall x (List.mem_cons_of_mem c hx))]

/-- On a split result with at least two pieces, reSplitPipe right-strips
the first piece and edge-trims the rest. -/
theorem reSplitPipe_of_split (s : Str) (first : Str) (rest : List Str)
    (h : splitOnChar '|' s = first :: rest) (hne : rest ≠ []) :
    reSplitPipe s = rstripWs first :: trimMiddle rest := by
  unfold reSplitPipe
  rw [h]
  cases rest with
  | nil => exact absurd rfl hne
  | cons r rs => rfl

/-- trimMiddle strips every middle piece on both sides and the last piece
on the left only. -/
theorem trimMiddle_last (b : Str) :
    ∀ (mids : List Str), trimMiddle (mids ++ [b]) = mids.map stripWs ++ [lstripWs b] := by
  intro mids
  induction mids with
  | nil => rfl
  | cons m ms ih =>
    cases ms with
    | nil => rfl
    | cons m2 ms2 =>
      have h1 : trimMiddle ((m :: m2 :: ms2) ++ [b]) =
          stripWs m :: trimMiddle ((m2 :: ms2) ++ [b]) := rfl
      rw [h1, ih]
      rfl

/-- Filling a row succeeds exactly when there are at least as many cells
as values. -/
theorem fillCells_isSome :
    ∀ (cells : List NCell) (vs : List Str),
    (fillCells cells vs).isSome = true ↔ vs.length ≤ cells.length := by
  intro cells vs
  induction vs generalizing cells with
  | nil => simp [fillCells]
  | cons v vs ih =>
    cases cells with
    | nil => simp [fillCells]
    | cons c cs =>
      simp only [fillCells]
      have ihc := ih cs
      cases hf : fillCells cs vs with
      | none =>
        rw [hf] at ihc
        simp at ihc ⊢
        omega
      | some rest =>
        rw [hf] at ihc
        simp at ihc ⊢
        omega

/-- A successfully filled row is the written white cells followed by the
untouched remainder of the row. -/
theorem fillCells_eq :
    ∀ (cells : List NCell) (vs : List Str) (out : List NCell),
    fillCells cells vs = some out →
    out = vs.map white_ncell ++ cells.drop vs.length := by
  intro cells vs
  induction vs generalizing cells with
  | nil =>
    intro out h
    simp only [fillCells, Option.some.injEq] at h
    simp [← h]
  | cons v vs ih =>
    intro out h
    cases cells with
    | nil => simp [fillCells] at h
    | cons c cs =>
      simp only [fillCells] at h
      cases hf : fillCells cs vs with
      | none => rw [hf] at h; simp at h
      | some rest =>
        rw [hf] at h
        simp only [Option.some.injEq] at h
        rw [← h, ih cs rest hf]
        simp

/-- The data-row loop succeeds exactly when every row fits the column
count. -/
theorem fillRows_isSome (cols : Nat) :
    ∀ (rs : List (List Str)),
    (fillRows cols rs).isSome = true ↔ ∀ r ∈ rs, r.length ≤ cols := by
  intro rs
  induction rs with
  | nil => simp [fillRows]
  | cons r rs ih =>
    constructor
    · intro h
      simp only [fillRows] at h
      cases hc : fillCells (mkEmptyNRow cols) r with
      | none => rw [hc] at h; simp at h
      | some c =>
        cases hr : fillRows cols rs with
        | none => rw [hc, hr] at h; simp at h
        | some cs =>
          intro x hx
          rcases List.mem_cons.mp hx with rfl | hx2
          · have h1 := fillCells_isSome (mkEmptyNRow cols) x
            rw [hc] at h1
            simpa [mkEmptyNRow] using h1
          · exact (ih.mp (by rw [hr]; rfl)) x hx2
    · intro hall
      simp only [fillRows]
      have h1 : (fillCells (mkEmptyNRow cols) r).isSome = true := by
        rw [fillCells_isSome]
        simpa [mkEmptyNRow] using hall r (List.mem_cons_self r rs)
      have h2 : (fillRows cols rs).isSome = true := by
        rw [ih]
        intro x hx
        exact hall x (List.mem_cons_of_mem r hx)
      cases hc : fillCells (mkEmptyNRow cols) r with
      | none => rw [hc] at h1; simp at h1
      | some c =>
        cases hr : fillRows cols rs with
        | none => rw [hr] at h2; simp at h2
        | some cs => rfl

/-- The data-row loop adds exactly one table row per parsed data row. -/
theorem fillRows_length (cols : Nat) :
    ∀ (rs : List (List Str)) (out : List (List NCell)),
    fillRows cols rs = some out → out.length = rs.length := by
  intro rs
  induction rs with
  | nil =>
    intro out h
    simp only [fillRows, Option.some.injEq] at h
    simp [← h]
  | cons r rs ih =>
    intro out h
    simp only [fillRows] at h
    cases hc : fillCells (mkEmptyNRow cols) r with
    | none => rw [hc] at h; simp at h
    | some c =>
      cases hr : fillRows cols rs with
      | none => rw [hc, hr] at h; simp at h
      | some cs =>
        rw [hc, hr] at h
        simp only [Option.some.injEq] at h
        rw [← h]
        simp [ih cs hr]

/-- A successful _populate_table call on a fresh answer table yields one
all-white header row built from the headers followed by one row per data
row. -/
theorem populate_spec (headers : List Str) (rows : List (List Str)) (nt : NTable)
    (h : _populate_table (new_answer_table headers) headers rows = some nt) :
    ∃ dataRows, dataRows.length = rows.length ∧
      nt = { cols := headers.length, borderColor := BORDER_COLOR_GREY,
             borderSize := BORDER_SIZE_DEFAULT,
             rows := headers.map white_ncell :: dataRows } := by
  simp only [_populate_table] at h
  cases hc : fillCells (mkEmptyNRow (new_answer_table headers).cols) headers with
  | none => rw [hc] at h; simp at h
  | some hrow =>
    cases hr : fillRows (new_answer_table headers).cols rows with
    | none => rw [hc, hr] at h; simp at h
    | some drows =>
      rw [hc, hr] at h
      simp only [Option.some.injEq] at h
      have hhrow : hrow = headers.map white_ncell := by
        have h3 := fillCells_eq _ headers hrow hc
        have hd : ((mkEmptyNRow (new_answer_table headers).cols).drop headers.length
            : List NCell) = [] := by
          apply List.drop_of_length_le
          simp [mkEmptyNRow, new_answer_table]
        rw [hd] at h3
        simpa using h3
      refine ⟨drows, fillRows_length _ rows drows hr, ?_⟩
      rw [← h, hhrow]
      rfl

/-- _populate_table on a fresh answer table succeeds exactly when every
data row has at most as many cells as the header row. -/
theorem populate_isSome (headers : List Str) (rows : List (List Str)) :
    (_populate_table (new_answer_table headers) headers rows).isSome = true ↔
      ∀ r ∈ rows, r.length ≤ headers.length := by
  simp only [_populate_table]
  have h1 : (fillCells (mkEmptyNRow (new_answer_table headers).cols) headers).isSome = true := by
    rw [fillCells_isSome]
    simp [mkEmptyNRow, new_answer_table]
  cases hc : fillCells (mkEmptyNRow (new_answer_table headers).cols) headers with
  | none => rw [hc] at h1; simp at h1
  | some hrow =>
    have h2 := fillRows_isSome (new_answer_table headers).cols rows
    cases hr : fillRows (new_answer_table headers).cols rows with
    | none =>
      rw [hr] at h2
      simp at h2 ⊢
      simpa [new_answer_table] using h2
    | some drows =>
      rw [hr] at h2
      simp at h2 ⊢
      simpa [new_answer_table] using h2

/-- add_question_row appends exactly one two-cell row: the blue label cell
and the white value cell with the conditional N/A substitution and muted
colour. -/
theorem add_question_row_rows (t : QTable) (name value : Str) :
    (add_question_row t name value).rows = t.rows ++ [[label_cell name, value_cell value]] := rfl

/-- add_question_row does not change the column count. -/
theorem add_question_row_cols (t : QTable) (name value : Str) :
    (add_question_row t name value).cols = t.cols := rfl

/-- A successful add_question_table_row call appends exactly one row whose
value cell holds the populated nested table. -/
theorem add_question_table_row_spec (t : QTable) (name value : Str) (t2 : QTable)
    (h : add_question_table_row t name value = some t2) :
    ∃ headers rows dataRows,
      parse_markdown_table value = some (headers, rows) ∧
      dataRows.length = rows.length ∧
      t2 = { t with rows := t.rows ++
              [[label_cell name,
                { text := [], bg := some CELL_BG_COLOR_WHITE, fontColor := none,
                  nested := some { cols := headers.length, borderColor := BORDER_COLOR_GREY,
                                   borderSize := BORDER_SIZE_DEFAULT,
                                   rows := headers.map white_ncell :: dataRows } }]] } := by
  cases hp : parse_markdown_table value with
  | none =>
    simp only [add_question_table_row, hp] at h
    simp at h
  | some pr =>
    obtain ⟨headers, rows⟩ := pr
    simp only [add_question_table_row, hp] at h
    cases hpop : _populate_table (new_answer_table headers) headers rows with
    | none =>
      simp only [hpop] at h
      simp at h
    | some nt =>
      simp only [hpop, Option.some.injEq] at h
      obtain ⟨dataRows, hlen, hnt⟩ := populate_spec headers rows nt hpop
      refine ⟨headers, rows, dataRows, rfl, hlen, ?_⟩
      rw [← h, hnt]
      rfl

/-- Structure of a successful build_question: the shadowed empty table is
appended first, then the question table whose rows are the merged header
row, an optional Follow-up row, the Answer row (scalar in general, nested
exactly for the strings Table and JSON), the Comment row and the
Documents row. -/
theorem build_question_master (handle : Str → Str) (q : Question) (bs : List Block)
    (h : build_question handle q = some bs) :
    ∃ (t1 : QTable) (fr : List (List QCell)) (ar : List QCell),
      bs = [Block.table shadow_table, Block.table t1] ∧
      t1.cols = 2 ∧
      t1.rows = [question_header_cell handle q] ::
        (fr ++ [ar,
          [label_cell (str "Comment"), value_cell (clean_text handle q.answerComments)],
          [label_cell (str "Documents"),
           value_cell (joinComma (flatten_attached q.docListAnswer))]]) ∧
      (fr = [] ∨ ∃ v, fr = [[label_cell (str "Follow-up"), value_cell v]]) ∧
      ((q.answerType ≠ str "Table" ∧ q.answerType ≠ str "JSON") →
        ar = [label_cell (str "Answer"),
              value_cell (handle_answer_type handle q.answerValue q.answerType)]) ∧
      ((q.answerType = str "Table" ∨ q.answerType = str "JSON") →
        ∃ headers rows dataRows,
          parse_markdown_table (handle_answer_type handle q.answerValue q.answerType) =
            some (headers, rows) ∧
          dataRows.length = rows.length ∧
          ar = [label_cell (str "Answer"),
                { text := [], bg := some CELL_BG_COLOR_WHITE, fontColor := none,
                  nested := some { cols := headers.length, borderColor := BORDER_COLOR_GREY,
                                   borderSize := BORDER_SIZE_DEFAULT,
                                   rows := headers.map white_ncell :: dataRows } }]) := by
  cases hab : answerBranch handle
      (followupBranch handle (_add_question_header handle _create_question_table q) q) q with
  | none =>
    simp only [build_question, hab] at h
    simp at h
  | some ta =>
    simp only [build_question, hab, Option.some.injEq] at h
    obtain ⟨fr, hfrshape, hfrrows, hfrcols⟩ :
        ∃ fr, (fr = [] ∨ ∃ v, fr = [[label_cell (str "Follow-up"), value_cell v]]) ∧
          (followupBranch handle (_add_question_header handle _create_question_table q) q).rows
            = [question_header_cell handle q] :: fr ∧
          (followupBranch handle (_add_question_header handle _create_question_table q) q).cols
            = 2 := by
      unfold followupBranch
      by_cases htr : q.triggerValue ≠ []
      · rw [if_pos htr]
        exact ⟨[[label_cell (str "Follow-up"), value_cell _]], Or.inr ⟨_, rfl⟩, rfl, rfl⟩
      · rw [if_neg htr]
        exact ⟨[], Or.inl rfl, by simp [_add_question_header, _create_question_table], rfl⟩
    simp only [answerBranch] at hab
    split at hab
    · rename_i hty
      have hta := Option.some.inj hab
      refine ⟨_, fr, [label_cell (str "Answer"),
        value_cell (handle_answer_type handle q.answerValue q.answerType)],
        h.symm, ?_, ?_, hfrshape, fun _ => rfl,
        fun hor => absurd hor (not_or.mpr ⟨hty.1, hty.2⟩)⟩
      · rw [add_question_row_cols, add_question_row_cols, ← hta, add_question_row_cols, hfrcols]
      · rw [add_question_row_rows, add_question_row_rows, ← hta, add_question_row_rows, hfrrows]
        simp
    · rename_i hty
      obtain ⟨headers, rows, dataRows, hparse, hlen, hta⟩ :=
        add_question_table_row_spec _ _ _ ta hab
      refine ⟨_, fr, [label_cell (str "Answer"),
        { text := [], bg := some CELL_BG_COLOR_WHITE, fontColor := none,
          nested := some { cols := headers.length, borderColor := BORDER_COLOR_GREY,
                           borderSize := BORDER_SIZE_DEFAULT,
                           rows := headers.map white_ncell :: dataRows } }],
        h.symm, ?_, ?_, hfrshape,
        fun hne => absurd hne hty,
        fun _ => ⟨headers, rows, dataRows, hparse, hlen, rfl⟩⟩
      · rw [add_question_row_cols, add_question_row_cols, hta]
        exact hfrcols
      · rw [add_question_row_rows, add_question_row_rows, hta]
        simp only [hfrrows]
        simp

/-- A banner block is classified as a banner with its text. -/
theorem blockOutline_banner (s : Str) :
    blockOutline (add_assessment_section s) = some (OItem.banner s) := rfl

/-- Paragraphs are not outline items. -/
theorem blockOutline_para (t : Str) (s : Option Str) :
    blockOutline (Block.para t s) = none := rfl

/-- The outline contribution of one successful build_question is exactly
one question block labelled with the merged header text. -/
theorem build_question_outline (handle : Str → Str) (q : Question) (bs : List Block)
    (h : build_question handle q = some bs) :
    bs.filterMap blockOutline = [OItem.qblock (question_header_text handle q)] := by
  obtain ⟨t1, fr, ar, hbs, hcols, hrows, -, -, -⟩ := build_question_master handle q bs h
  subst hbs
  have h1 : blockOutline (Block.table shadow_table) = none := rfl
  have h2 : blockOutline (Block.table t1) = some (OItem.qblock (question_header_text handle q)) := by
    simp [blockOutline, hcols, hrows, question_header_cell]
  simp [h1, h2]

/-- The outline contribution of the question loop is one question block
per question, in input order. -/
theorem renderQuestions_outline (handle : Str → Str) :
    ∀ (qs : List Question) (bs : List Block), renderQuestions handle qs = some bs →
    bs.filterMap blockOutline = qs.map fun q => OItem.qblock (question_header_text handle q) := by
  intro qs
  induction qs with
  | nil =>
    intro bs h
    simp only [renderQuestions, Option.some.injEq] at h
    rw [← h]
    rfl
  | cons q qs ih =>
    intro bs h
    simp only [renderQuestions] at h
    cases hb : build_question handle q with
    | none => rw [hb] at h; simp at h
    | some b =>
      cases hr : renderQuestions handle qs with
      | none => rw [hb, hr] at h; simp at h
      | some rest =>
        rw [hb, hr] at h
        simp only [Option.some.injEq] at h
        rw [← h, List.filterMap_append, build_question_outline handle q b hb, ih rest hr]
        simp

/-- The outline contribution of the subsection loop matches the spec-side
subsection walk. -/
theorem renderSubSections_outline (handle : Str → Str) :
    ∀ (l : List SubSection) (bs : List Block), renderSubSections handle l = some bs →
    bs.filterMap blockOutline = specSubWalk handle l := by
  intro l
  induction l with
  | nil =>
    intro bs h
    simp only [renderSubSections, Option.some.injEq] at h
    rw [← h]
    rfl
  | cons ss more ih =>
    intro bs h
    simp only [renderSubSections] at h
    cases hq : renderQuestions handle ss.questionDetails with
    | none => rw [hq] at h; simp at h
    | some qs =>
      cases hr : renderSubSections handle more with
      | none => rw [hq, hr] at h; simp at h
      | some rest =>
        rw [hq, hr] at h
        simp only [Option.some.injEq] at h
        rw [← h]
        simp [List.filterMap_append, blockOutline_banner, blockOutline_para,
          renderQuestions_outline handle ss.questionDetails qs hq, ih rest hr, specSubWalk]

/-- The outline contribution of the section loop matches the spec-side
traversal order. -/
theorem renderSections_outline (handle : Str → Str) :
    ∀ (l : List Section) (bs : List Block), renderSections handle l = some bs →
    bs.filterMap blockOutline = specTraversalOrder handle l := by
  intro l
  induction l with
  | nil =>
    intro bs h
    simp only [renderSections, Option.some.injEq] at h
    rw [← h]
    rfl
  | cons s more ih =>
    intro bs h
    simp only [renderSections] at h
    cases hq : renderQuestions handle s.questionDetails with
    | none => rw [hq] at h; simp at h
    | some qs =>
      cases hsub : renderSubSections handle s.subSections with
      | none => rw [hq, hsub] at h; simp at h
      | some subs =>
        cases hr : renderSections handle more with
        | none => rw [hq, hsub, hr] at h; simp at h
        | some rest =>
          rw [hq, hsub, hr] at h
          simp only [Option.some.injEq] at h
          rw [← h]
          simp [List.filterMap_append, blockOutline_banner, blockOutline_para,
            renderQuestions_outline handle s.questionDetails qs hq,
            renderSubSections_outline handle s.subSections subs hsub,
            ih rest hr, specTraversalOrder]

/-- C1 counterexample: with the identity markup converter, a Table answer
whose value starts with a space is not returned unchanged by
handle_answer_type, because the value is passed through the Text
Sanitizer, which strips it. -/
theorem C1_counterexample :
    handle_answer_type id (str " x") (str "Table") ≠ str " x" := by decide

/-- C1 (amended): for the answer types Table, Json and JSON,
handle_answer_type has no dedicated case and falls through to the default
branch, so the answer value is passed through the Text Sanitizer
(clean_text) before the nested-table branch consumes it, rather than
being returned unchanged. -/
theorem C1_table_json_sanitized (handle : Str → Str) (v : Str) :
    handle_answer_type handle v (str "Table") = clean_text handle v ∧
    handle_answer_type handle v (str "Json") = clean_text handle v ∧
    handle_answer_type handle v (str "JSON") = clean_text handle v :=
  ⟨rfl, rfl, rfl⟩

/-- C4 counterexample: the empty string has fewer than two lines (its
stripped form splits into exactly one line) yet parse_markdown_table does
not fail: it returns a one-cell header row and no data rows. -/
theorem C4_counterexample :
    parse_markdown_table (str "") = some ([[]], []) ∧
    (splitOnChar '\n' (stripWs (str ""))).length = 1 := by decide

/-- C4 (amended): parse_markdown_table never fails.  For every input the
stripped text is split on newlines (yielding at least one line), the
first line is stripped and pipe-split into the headers, the second line
is discarded unvalidated, and every remaining line is stripped and
pipe-split into a data row in input order with no column-count check;
inputs with fewer than two lines therefore succeed with an empty row
list instead of failing. -/
theorem C4_parse_total (md : Str) :
    parse_markdown_table md =
      some (reSplitPipe (stripWs ((splitOnChar '\n' (stripWs md)).headD [])),
            ((splitOnChar '\n' (stripWs md)).drop 2).map fun line =>
              reSplitPipe (stripWs line)) := by
  simp only [parse_markdown_table]
  cases h : splitOnChar '\n' (stripWs md) with
  | nil => exact absurd h (splitOnChar_ne_nil _ _)
  | cons l0 rest => simp

/-- C5 counterexample: with the identity converter, an input with four
consecutive newlines sanitizes to a text that still contains three
consecutive newlines, because the single left-to-right pass rewrites only
the first three of them. -/
theorem C5_counterexample :
    hasTripleNl (clean_text id (str "a\n\n\n\nb")) = true := by decide

/-- C5 (amended): the sanitizer strips the converted text and runs one
left-to-right pass replacing each non-overlapping blank-line pattern (a
newline, optional spaces and tabs, a newline, optional spaces and tabs, a
newline) by two newlines: converted text without the pattern is returned
stripped but otherwise unchanged and a run of exactly three newlines is
collapsed to two, but a run of four newlines leaves three behind, so the
output is not free of runs of three or more newlines. -/
theorem C5_partial_collapse :
    (∀ (handle : Str → Str) (s : Str),
      hasTriple (stripWs (handle s)) = false → clean_text handle s = stripWs (handle s)) ∧
    clean_text id (str "a\n \n\t\nb") = str "a\n\nb" ∧
    clean_text id (str "a\n\n\n\nb") = str "a\n\n\nb" := by
  refine ⟨?_, by decide, by decide⟩
  intro handle s h
  unfold clean_text cleanCore
  rw [collapseRun_of_not_hasTriple _ h]

/-- C5 witness: the no-pattern case of the amended collapse theorem at a
concrete input. -/
theorem C5_witness : clean_text id (str "a\nb") = stripWs (str "a\nb") :=
  C5_partial_collapse.1 id (str "a\nb") (by decide)

/-- C7 counterexample: the leading whitespace of the first cell is not
preserved, because each line is stripped before it is split. -/
theorem C7_counterexample :
    parse_markdown_table (str "  a | b\n-\nc") = some ([str "a", str "b"], [[str "c"]]) ∧
    parse_markdown_table (str "  a | b\n-\nc") ≠ some ([str "  a", str "b"], [[str "c"]]) := by
  decide

/-- C7 (amended): the split removes exactly the whitespace adjacent to
each pipe and never trims inside a cell.  A line without a pipe becomes
one untrimmed cell; a line with any number of pipes, written as
pipe-free chunks joined by pipes, splits into its chunks with the first
chunk right-stripped only, every middle chunk stripped on both sides
(each side touches a pipe) and the last chunk left-stripped only, so
interior cell whitespace survives.  The leading whitespace of the first
cell and the trailing whitespace of the last cell are nevertheless
removed on every line the parser processes, because parse_markdown_table
passes every line through str.strip() before splitting it. -/
theorem C7_split_adjacent_only :
    (∀ (line : Str), '|' ∉ line → reSplitPipe line = [line]) ∧
    (∀ (a b : Str) (mids : List Str), '|' ∉ a → '|' ∉ b → (∀ m ∈ mids, '|' ∉ m) →
      reSplitPipe (joinPipe (a :: (mids ++ [b]))) =
        rstripWs a :: (mids.map stripWs ++ [lstripWs b])) ∧
    (∀ (md : Str) (headers : List Str) (rows : List (List Str)),
      parse_markdown_table md = some (headers, rows) →
      headers = reSplitPipe (stripWs ((splitOnChar '\n' (stripWs md)).headD [])) ∧
      rows = ((splitOnChar '\n' (stripWs md)).drop 2).map fun line =>
        reSplitPipe (stripWs line)) := by
  refine ⟨reSplitPipe_no_pipe, ?_, ?_⟩
  · intro a b mids ha hb hm
    have hcells : ∀ c ∈ a :: (mids ++ [b]), '|' ∉ c := by
      intro c hc
      rcases List.mem_cons.mp hc with rfl | hc2
      · exact ha
      · rcases List.mem_append.mp hc2 with hcm | hcb
        · exact hm c hcm
        · rw [List.mem_singleton.mp hcb]
          exact hb
    have hsplit := splitOnChar_joinPipe (a :: (mids ++ [b])) (by simp) hcells
    rw [reSplitPipe_of_split (joinPipe (a :: (mids ++ [b]))) a (mids ++ [b]) hsplit (by simp),
      trimMiddle_last b mids]
  · intro md headers rows hp
    simp only [parse_markdown_table] at hp
    cases h : splitOnChar '\n' (stripWs md) with
    | nil => exact absurd h (splitOnChar_ne_nil _ _)
    | cons l0 rest =>
      rw [h] at hp
      simp only [Option.some.injEq, Prod.mk.injEq] at hp
      exact ⟨hp.1.symm, hp.2.symm⟩

/-- C7 witness: the splitting rule at a concrete two-pipe line, keeping
the interior spaces of all three cells and dropping only the whitespace
next to a pipe. -/
theorem C7_witness :
    reSplitPipe (joinPipe [str "x y ", str " m n ", str " z w"]) =
      [str "x y", str "m n", str "z w"] :=
  (C7_split_adjacent_only.2.1 (str "x y ") (str " z w") [str " m n "]
    (by decide) (by decide) (by decide)).trans (by decide)

/-- C8 counterexample: with the identity converter, sanitizing twice
differs from sanitizing once on a text with four consecutive newlines. -/
theorem C8_counterexample :
    clean_text id (clean_text id (str "a\n\n\n\nb")) ≠ clean_text id (str "a\n\n\n\nb") := by
  decide

/-- C8 (amended): idempotence holds only conditionally.  The part of the
sanitizer owned by the repository (strip plus the single collapse pass)
is idempotent on inputs whose stripped text does not contain the
blank-line pattern; on text with a run of four or more newlines a second
pass collapses further, and the full sanitizer additionally re-applies
the external markup converter on the second pass. -/
theorem C8_conditional_idempotence :
    (∀ (s : Str), hasTriple (stripWs s) = false → cleanCore (cleanCore s) = cleanCore s) ∧
    cleanCore (cleanCore (str "a\n\n\n\nb")) ≠ cleanCore (str "a\n\n\n\nb") := by
  refine ⟨?_, by decide⟩
  intro s h
  have h1 : cleanCore s = stripWs s := by
    unfold cleanCore
    rw [collapseRun_of_not_hasTriple _ h]
  rw [h1]
  unfold cleanCore
  rw [stripWs_idem]
  exact collapseRun_of_not_hasTriple _ h

/-- C8 witness: conditional idempotence of the sanitizer core at a
concrete already-collapsed input. -/
theorem C8_witness : cleanCore (cleanCore (str " a\n\nb ")) = cleanCore (str " a\n\nb ") :=
  C8_conditional_idempotence.1 (str " a\n\nb ") (by decide)

/-- C2 counterexample: a question whose answerType is the mixed-case
string Json is rendered with no nested table anywhere in its question
table — the code compares against the uppercase string JSON, so Json
takes the scalar branch. -/
theorem C2_counterexample :
    secondTableNoNested (build_question id qJsonCase) = true := by decide

/-- C2 (amended): the nested-table branch is taken exactly for the
case-sensitive answer types Table and JSON (not Json).  For those, the
Answer row value cell holds a nested table with its own grey border, one
header row of all-white cells built from the parsed headers, and one row
per parsed data row.  For every other answerType (Json included) a scalar
Answer row is added instead and no cell of the question table holds a
nested table. -/
theorem C2_nested_table (handle : Str → Str) (quest : Question) (bs : List Block)
    (h : build_question handle quest = some bs) :
    ((quest.answerType = str "Table" ∨ quest.answerType = str "JSON") →
      ∃ t1 pre headers rows dataRows,
        bs = [Block.table shadow_table, Block.table t1] ∧
        parse_markdown_table (handle_answer_type handle quest.answerValue quest.answerType) =
          some (headers, rows) ∧
        dataRows.length = rows.length ∧
        t1.rows = pre ++
          [[label_cell (str "Answer"),
            { text := [], bg := some CELL_BG_COLOR_WHITE, fontColor := none,
              nested := some { cols := headers.length, borderColor := BORDER_COLOR_GREY,
                               borderSize := BORDER_SIZE_DEFAULT,
                               rows := headers.map white_ncell :: dataRows } }],
           [label_cell (str "Comment"), value_cell (clean_text handle quest.answerComments)],
           [label_cell (str "Documents"),
            value_cell (joinComma (flatten_attached quest.docListAnswer))]]) ∧
    ((quest.answerType ≠ str "Table" ∧ quest.answerType ≠ str "JSON") →
      ∃ t1 pre,
        bs = [Block.table shadow_table, Block.table t1] ∧
        t1.rows = pre ++
          [[label_cell (str "Answer"),
            value_cell (handle_answer_type handle quest.answerValue quest.answerType)],
           [label_cell (str "Comment"), value_cell (clean_text handle quest.answerComments)],
           [label_cell (str "Documents"),
            value_cell (joinComma (flatten_attached quest.docListAnswer))]] ∧
        ∀ row ∈ t1.rows, ∀ c ∈ row, c.nested = none) := by
  obtain ⟨t1, fr, ar, hbs, hcols, hrows, hfr, hscalar, hnested⟩ :=
    build_question_master handle quest bs h
  constructor
  · intro hor
    obtain ⟨headers, rows, dataRows, hp, hlen, har⟩ := hnested hor
    refine ⟨t1, [question_header_cell handle quest] :: fr, headers, rows, dataRows,
      hbs, hp, hlen, ?_⟩
    rw [hrows, har]
    rfl
  · intro hne
    have har := hscalar hne
    refine ⟨t1, [question_header_cell handle quest] :: fr, hbs, ?_, ?_⟩
    · rw [hrows, har]
      rfl
    · intro row hrow c hc
      rw [hrows, har] at hrow
      rcases hfr with rfl | ⟨v, rfl⟩
      · simp at hrow
        rcases hrow with rfl | rfl | rfl | rfl
        · simp at hc
          subst hc
          rfl
        · simp at hc
          rcases hc with rfl | rfl <;> rfl
        · simp at hc
          rcases hc with rfl | rfl <;> rfl
        · simp at hc
          rcases hc with rfl | rfl <;> rfl
      · simp at hrow
        rcases hrow with rfl | rfl | rfl | rfl | rfl
        · simp at hc
          subst hc
          rfl
        · simp at hc
          rcases hc with rfl | rfl <;> rfl
        · simp at hc
          rcases hc with rfl | rfl <;> rfl
        · simp at hc
          rcases hc with rfl | rfl <;> rfl
        · simp at hc
          rcases hc with rfl | rfl <;> rfl

/-- C2 witness: the nested branch of the amended theorem at a concrete
Table question with a two-column, one-row embedded markdown table. -/
theorem C2_witness :
    build_question id qTableW = some tblWBlocks ∧
    (∃ t1 pre headers rows dataRows,
      tblWBlocks = [Block.table shadow_table, Block.table t1] ∧
      parse_markdown_table (handle_answer_type id qTableW.answerValue qTableW.answerType) =
        some (headers, rows) ∧
      dataRows.length = rows.length ∧
      t1.rows = pre ++
        [[label_cell (str "Answer"),
          { text := [], bg := some CELL_BG_COLOR_WHITE, fontColor := none,
            nested := some { cols := headers.length, borderColor := BORDER_COLOR_GREY,
                             borderSize := BORDER_SIZE_DEFAULT,
                             rows := headers.map white_ncell :: dataRows } }],
         [label_cell (str "Comment"), value_cell (clean_text id qTableW.answerComments)],
         [label_cell (str "Documents"),
          value_cell (joinComma (flatten_attached qTableW.docListAnswer))]]) :=
  ⟨by decide, (C2_nested_table id qTableW tblWBlocks (by decide)).1 (Or.inl rfl)⟩

/-- C6 counterexample: a question with empty answerComments renders its
Comment row as the literal N/A in the muted grey font colour, so the
conditional font colouring is not exclusive to the Answer row. -/
theorem C6_counterexample : commentRowMuted (build_question id qJsonCase) = true := by decide

/-- C6 (amended): for a non-Table, non-JSON answer the Answer row shows
the formatter output with N/A substituted when it is empty and rendered
in the muted grey exactly when the displayed value is N/A — but the same
rule applies to every scalar row: the Comment and Documents rows (and any
Follow-up row) are produced by the same routine and also render an empty
value as the muted N/A, so the conditional font colouring is not
exclusive to the Answer row. -/
theorem C6_na_muted (handle : Str → Str) (quest : Question) (bs : List Block)
    (h : build_question handle quest = some bs)
    (h1 : quest.answerType ≠ str "Table") (h2 : quest.answerType ≠ str "JSON") :
    ∃ t1 pre,
      bs = [Block.table shadow_table, Block.table t1] ∧
      t1.rows = pre ++
        [[label_cell (str "Answer"),
          value_cell (handle_answer_type handle quest.answerValue quest.answerType)],
         [label_cell (str "Comment"), value_cell (clean_text handle quest.answerComments)],
         [label_cell (str "Documents"),
          value_cell (joinComma (flatten_attached quest.docListAnswer))]] ∧
      ∀ v : Str, value_cell v =
        { text := if v = [] then str "N/A" else v,
          bg := some CELL_BG_COLOR_WHITE,
          fontColor := if (if v = [] then str "N/A" else v) = str "N/A"
                       then some (124, 124, 124) else none,
          nested := none } := by
  obtain ⟨t1, fr, ar, hbs, hcols, hrows, hfr, hscalar, -⟩ :=
    build_question_master handle quest bs h
  refine ⟨t1, [question_header_cell handle quest] :: fr, hbs, ?_, fun v => rfl⟩
  rw [hrows, hscalar ⟨h1, h2⟩]
  rfl

/-- C6 witness: the amended row layout at a concrete scalar question with
an empty document list, whose Documents row is the muted N/A. -/
theorem C6_witness :
    build_question id qScalarW = some scalarWBlocks ∧
    (∃ t1 pre,
      scalarWBlocks = [Block.table shadow_table, Block.table t1] ∧
      t1.rows = pre ++
        [[label_cell (str "Answer"),
          value_cell (handle_answer_type id qScalarW.answerValue qScalarW.answerType)],
         [label_cell (str "Comment"), value_cell (clean_text id qScalarW.answerComments)],
         [label_cell (str "Documents"),
          value_cell (joinComma (flatten_attached qScalarW.docListAnswer))]] ∧
      ∀ v : Str, value_cell v =
        { text := if v = [] then str "N/A" else v,
          bg := some CELL_BG_COLOR_WHITE,
          fontColor := if (if v = [] then str "N/A" else v) = str "N/A"
                       then some (124, 124, 124) else none,
          nested := none }) :=
  ⟨by decide, C6_na_muted id qScalarW scalarWBlocks (by decide) (by decide) (by decide)⟩

/-- C9: every successful build_question appends exactly two two-column
grey-bordered tables: the first, created and border-styled at the start
of the function, is immediately shadowed, keeps zero rows, and precedes
the populated question table in the document. -/
theorem C9_shadow_empty_table (handle : Str → Str) (quest : Question) (bs : List Block)
    (h : build_question handle quest = some bs) :
    ∃ t1, bs = [Block.table shadow_table, Block.table t1] ∧
      shadow_table.rows = [] ∧ shadow_table.cols = 2 ∧
      shadow_table.borderColor = BORDER_COLOR_GREY ∧
      t1.cols = 2 ∧ t1.rows ≠ [] := by
  obtain ⟨t1, fr, ar, hbs, hcols, hrows, hfr, hscalar, hnested⟩ :=
    build_question_master handle quest bs h
  refine ⟨t1, hbs, rfl, rfl, rfl, hcols, ?_⟩
  rw [hrows]
  simp

/-- C9 witness: the leftover empty bordered table for a concrete scalar
question. -/
theorem C9_witness :
    build_question id qScalarW = some scalarWBlocks ∧
    (∃ t1, scalarWBlocks = [Block.table shadow_table, Block.table t1] ∧
      shadow_table.rows = [] ∧ shadow_table.cols = 2 ∧
      shadow_table.borderColor = BORDER_COLOR_GREY ∧
      t1.cols = 2 ∧ t1.rows ≠ []) :=
  ⟨by decide, C9_shadow_empty_table id qScalarW scalarWBlocks (by decide)⟩

/-- C10: the nested answer table is populated only when the data fits: for
every parse result the header list is non-empty and _populate_table on
the freshly created nested table succeeds exactly when every parsed data
row has at most as many cells as the header row; a concrete ragged Table
answer whose data row is wider than its header makes the question build
fail. -/
theorem C10_populate_bound :
    (∀ (md : Str) (headers : List Str) (rows : List (List Str)),
      parse_markdown_table md = some (headers, rows) →
      headers ≠ [] ∧
      ((_populate_table (new_answer_table headers) headers rows).isSome = true ↔
        ∀ r ∈ rows, r.length ≤ headers.length)) ∧
    build_question id raggedQ = none := by
  refine ⟨?_, by decide⟩
  intro md headers rows hp
  refine ⟨?_, populate_isSome headers rows⟩
  simp only [parse_markdown_table] at hp
  cases h : splitOnChar '\n' (stripWs md) with
  | nil => exact absurd h (splitOnChar_ne_nil _ _)
  | cons l0 rest =>
    rw [h] at hp
    simp only [Option.some.injEq, Prod.mk.injEq] at hp
    rw [← hp.1]
    exact reSplitPipe_ne_nil _

/-- C10 witness: the populate bound at a concrete parsed table with one
header and one two-cell data row. -/
theorem C10_witness :
    ([str "h"] : List Str) ≠ [] ∧
    ((_populate_table (new_answer_table [str "h"]) [str "h"] [[str "a", str "b"]]).isSome = true ↔
      ∀ r ∈ ([[str "a", str "b"]] : List (List Str)), r.length ≤ ([str "h"] : List Str).length) :=
  C10_populate_bound.1 (str "h\n-\na|b") [str "h"] [[str "a", str "b"]] (by decide)

/-- C3: generate_document emits, in order, the title paragraph, the
Details banner, the metadata table and a spacer paragraph, followed by
blocks whose outline of banners and question tables is exactly the
spec-side traversal order over the input arrays: for each section its
banner, its direct questions in order, then each subsection with its
banner and questions in order — nothing sorted, filtered or reordered. -/
theorem C3_traversal_order (handle : Str → Str) (d : AssessmentExport) (bs : List Block)
    (h : generate_document handle d = some bs) :
    ∃ mt rest,
      add_assessment_metadata d.root = some mt ∧
      bs = Block.para (str "Assessment Export") (some (str "Centrl Header")) ::
           add_assessment_section (str "Details") ::
           Block.table mt ::
           Block.para [] none :: rest ∧
      outline rest = specTraversalOrder handle d.sections := by
  simp only [generate_document] at h
  cases hm : add_assessment_metadata d.root with
  | none => rw [hm] at h; simp at h
  | some mt =>
    cases hs : renderSections handle d.sections with
    | none => rw [hm, hs] at h; simp at h
    | some secs =>
      rw [hm, hs] at h
      simp only [Option.some.injEq] at h
      exact ⟨mt, secs, rfl, h.symm, renderSections_outline handle d.sections secs hs⟩

/-- C3 witness: the traversal order at a concrete one-section document. -/
theorem C3_witness :
    generate_document id w3data = some w3Blocks ∧
    (∃ mt rest,
      add_assessment_metadata w3data.root = some mt ∧
      w3Blocks = Block.para (str "Assessment Export") (some (str "Centrl Header")) ::
           add_assessment_section (str "Details") ::
           Block.table mt ::
           Block.para [] none :: rest ∧
      outline rest = specTraversalOrder id w3data.sections) :=
  ⟨by decide, C3_traversal_order id w3data w3Blocks (by decide)⟩

end DocumentGenerator
